import Mathlib

/-!
Verification of the bookings-quality-report engine.

This file gives a shallow embedding, in Lean 4, of the contact
classification, quality scoring, aggregation, import/deduplication and
date-parsing logic of the `quality_monitor` Django application
(`models.py`, `utils.py`, `views.py`), together with theorems settling
the specification claims about that code.

Modelling conventions:
* Python/Django strings are `String` (processed as `List Char`);
  `CharField` values are never SQL NULL, so `__isnull=False` filters are
  identity and `exclude(f='')` is `f ≠ ""`.
* Regular expressions are embedded as `Reg` terms matched with Brzozowski
  derivatives (`matchList`), mirroring anchored `^...$` patterns as
  whole-string matches; `re.sub` of the anchored marker patterns
  (`^[A-Z]+/[A-Z]\+`, `/[A-Z]+$`, `-[A-Z]$`) and of single-character
  classes is implemented directly, since for those patterns the
  match is deterministic.
* The float comparison `digit_count / len(cleaned) > 0.7` of
  `Contact.is_phone` is embedded as the exact rational comparison
  `10 * digit_count > 7 * len(cleaned)`: for `len(cleaned) ≤ 200`
  (the field's maximal length and far below any double-rounding
  threshold) IEEE-754 division is correctly rounded, and any ratio
  that is rationally equal to 7/10 rounds to exactly the double `0.7`,
  so the two tests agree on every representable input.
* Querysets are lists; `Count(..., distinct=True)` over a related-model
  filter is the deduplicated list of matching parent keys over the
  join rows.
-/

namespace QM

/-! ### Character helpers (ASCII semantics of the Python operations used) -/

/-- Python `\s` on the inputs at hand: ASCII whitespace. -/
def isPySpace (c : Char) : Bool :=
  c == ' ' || c == '\t' || c == '\n' || c == '\r' || c == '\x0b' || c == '\x0c'

/-- Character class `[\s\-\+\(\)\.\,]` removed by `re.sub` in `Contact.is_phone`. -/
def isSepChar (c : Char) : Bool :=
  isPySpace c || c == '-' || c == '+' || c == '(' || c == ')' || c == '.' || c == ','

/-- The class `[A-Z]` of the marker patterns. -/
def isUpperAZ (c : Char) : Bool := c.isUpper

/-- The class `[a-zA-Z0-9]`. -/
def isAlphaNumAscii (c : Char) : Bool := c.isAlpha || c.isDigit

/-- Lexicographic `<` on character lists, as SQL compares two varchar
values for `field__gt=''` lookups. -/
def listLt : List Char → List Char → Bool
  | [], [] => false
  | [], _ :: _ => true
  | _ :: _, [] => false
  | a :: as, b :: bs => if a < b then true else if b < a then false else listLt as bs

/-- Python `str.strip()` (no argument): remove leading and trailing whitespace. -/
def pyStrip (l : List Char) : List Char :=
  ((l.dropWhile isPySpace).reverse.dropWhile isPySpace).reverse

/-- Python `str.strip()` lifted to `String`. -/
def pyStripStr (s : String) : String := String.mk (pyStrip s.data)

/-- Python `str.lower()` on a character list. -/
def pyLower (l : List Char) : List Char := l.map Char.toLower

/-- Does `l` start with `pat`? -/
def startsWithL : List Char → List Char → Bool
  | [], _ => true
  | _ :: _, [] => false
  | p :: ps, c :: cs => p == c && startsWithL ps cs

/-- Python `pat in s` substring containment. -/
def containsSub (pat : List Char) : List Char → Bool
  | [] => startsWithL pat []
  | c :: cs => startsWithL pat (c :: cs) || containsSub pat cs

/-- Python `str.replace('//', '@')`: left-to-right replacement of every
non-overlapping occurrence. -/
def replaceSlashesAt : List Char → List Char
  | '/' :: '/' :: rest => '@' :: replaceSlashesAt rest
  | c :: rest => c :: replaceSlashesAt rest
  | [] => []

/-! ### The three marker-stripping substitutions

`re.sub` with each of the anchored patterns replaces at most one
occurrence, and greedy matching of the character runs is deterministic
because the adjacent literal characters are outside the run classes. -/

/-- `re.sub(r'^[A-Z]+/[A-Z]\+', '', l)`: strip a leading carrier/channel
marker such as `KQ/M+`. -/
def stripCarrierMarker (l : List Char) : List Char :=
  match l.dropWhile isUpperAZ with
  | '/' :: c :: '+' :: rest =>
    if !(l.takeWhile isUpperAZ).isEmpty && isUpperAZ c then rest else l
  | _ => l

/-- `re.sub(r'/[A-Z]+$', '', l)`: strip a trailing locale marker such as `/EN`. -/
def stripLocaleMarker (l : List Char) : List Char :=
  match l.reverse.dropWhile isUpperAZ with
  | '/' :: rest =>
    if !(l.reverse.takeWhile isUpperAZ).isEmpty then rest.reverse else l
  | _ => l

/-- `re.sub(r'-[A-Z]$', '', l)`: strip a trailing usage marker such as `-M`. -/
def stripUsageMarker (l : List Char) : List Char :=
  match l.reverse with
  | c :: '-' :: rest => if isUpperAZ c then rest.reverse else l
  | _ => l

/-! ### Regular expressions as Brzozowski derivatives -/

/-- Regular expressions over `Char`, with character classes as predicates. -/
inductive Reg where
  | emp
  | eps
  | cls (p : Char → Bool)
  | cat (a b : Reg)
  | alt (a b : Reg)
  | star (a : Reg)

/-- Does the regular expression accept the empty string? -/
def Reg.nullable : Reg → Bool
  | .emp => false
  | .eps => true
  | .cls _ => false
  | .cat a b => a.nullable && b.nullable
  | .alt a b => a.nullable || b.nullable
  | .star _ => true

/-- Brzozowski derivative with respect to one character. -/
def Reg.step : Reg → Char → Reg
  | .emp, _ => .emp
  | .eps, _ => .emp
  | .cls p, c => if p c then .eps else .emp
  | .cat a b, c => if a.nullable then .alt (.cat (a.step c) b) (b.step c) else .cat (a.step c) b
  | .alt a b, c => .alt (a.step c) (b.step c)
  | .star a, c => .cat (a.step c) (.star a)

/-- Whole-string match (the semantics of an `^...$`-anchored pattern). -/
def matchList : List Char → Reg → Bool
  | [], r => r.nullable
  | c :: cs, r => matchList cs (r.step c)

/-- Single literal character. -/
def chrR (c : Char) : Reg := .cls (· == c)

/-- One or more repetitions (`+`). -/
def rep1 (a : Reg) : Reg := .cat a (.star a)

/-- Zero or one occurrence (`?`). -/
def optR (a : Reg) : Reg := .alt a .eps

/-- Exactly `n` repetitions. -/
def repN : Reg → Nat → Reg
  | _, 0 => .eps
  | a, n + 1 => .cat a (repN a n)

/-- At most `n` repetitions. -/
def optN : Reg → Nat → Reg
  | _, 0 => .eps
  | a, n + 1 => .cat (optR a) (optN a n)

/-- Bounded repetition `{lo, lo+extra}`. -/
def repRange (a : Reg) (lo extra : Nat) : Reg := .cat (repN a lo) (optN a extra)

/-- Literal character sequence. -/
def strR : List Char → Reg
  | [] => .eps
  | c :: cs => .cat (chrR c) (strR cs)

/-! ### The concrete patterns of `models.py` and `views.py` -/

/-- Character class `[A-Z]` as a `Reg` atom. -/
def upperCls : Reg := .cls isUpperAZ

/-- Character class `[a-zA-Z]`. -/
def alphaCls : Reg := .cls Char.isAlpha

/-- The optional carrier marker `(?:[A-Z]{2,3}/[A-Z]\+)?` of
`Contact.get_valid_contact_q`. -/
def qCarrierReg : Reg :=
  .cat (.cat upperCls (.cat upperCls (optR upperCls))) (.cat (chrR '/') (.cat upperCls (chrR '+')))

/-- Email pattern of `Contact.get_valid_contact_q`: an optional carrier
marker, then one or more characters of the class alnum/dot/underscore/
percent/plus/hyphen/slash, then `@` or `//`, then one or more characters
of the class alnum/dot/hyphen/slash, a literal dot, two or more letters,
an optional `/XX` locale marker and an optional `-X` usage marker,
anchored at both ends. -/
def emailQReg : Reg :=
  .cat (optR qCarrierReg) <|
  .cat (rep1 (.cls fun c => isAlphaNumAscii c || c == '.' || c == '_' || c == '%'
                             || c == '+' || c == '-' || c == '/')) <|
  .cat (.alt (chrR '@') (strR ['/', '/'])) <|
  .cat (rep1 (.cls fun c => isAlphaNumAscii c || c == '.' || c == '-' || c == '/')) <|
  .cat (chrR '.') <|
  .cat (.cat alphaCls (rep1 alphaCls)) <|
  .cat (optR (.cat (chrR '/') (.cat upperCls upperCls)))
      (optR (.cat (chrR '-') upperCls))

/-- Character class `[0-9\s\-\(\)]` of the phone patterns. -/
def phoneCls : Reg := .cls fun c => c.isDigit || isPySpace c || c == '-' || c == '(' || c == ')'

/-- Phone pattern of `Contact.get_valid_contact_q`:
`^(?:[A-Z]{2,3}/[A-Z]\+)?\+?[0-9\s\-\(\)]{7,25}(?:-[A-Z])?(?:/[A-Z]{2})?$`. -/
def phoneQReg : Reg :=
  .cat (optR qCarrierReg) <|
  .cat (optR (chrR '+')) <|
  .cat (repRange phoneCls 7 18) <|
  .cat (optR (.cat (chrR '-') upperCls))
      (optR (.cat (chrR '/') (.cat upperCls upperCls)))

/-- `Contact.EMAIL_PATTERN`:
`^[a-zA-Z0-9._%+-]+@([a-zA-Z0-9-]+\.)+[a-zA-Z]{2,}$`. -/
def EMAIL_PATTERN : Reg :=
  .cat (rep1 (.cls fun c => isAlphaNumAscii c || c == '.' || c == '_' || c == '%'
                             || c == '+' || c == '-')) <|
  .cat (chrR '@') <|
  .cat (rep1 (.cat (rep1 (.cls fun c => isAlphaNumAscii c || c == '-')) (chrR '.')))
      (.cat alphaCls (rep1 alphaCls))

/-- Pattern of `Contact.is_valid_phone`: `^\+?[0-9\s\-\(\)]{7,25}$`. -/
def phoneValidReg : Reg := .cat (optR (chrR '+')) (repRange phoneCls 7 18)

/-- Strict email pattern used by `calculate_pnr_statistics` and
`get_detailed_pnrs_qs`: `^[a-zA-Z0-9._%+-]+@[a-zA-Z0-9.-]+\.[a-zA-Z]{2,}$`. -/
def strictEmailReg : Reg :=
  .cat (rep1 (.cls fun c => isAlphaNumAscii c || c == '.' || c == '_' || c == '%'
                             || c == '+' || c == '-')) <|
  .cat (chrR '@') <|
  .cat (rep1 (.cls fun c => isAlphaNumAscii c || c == '.' || c == '-')) <|
  .cat (chrR '.')
      (.cat alphaCls (rep1 alphaCls))

/-- Strict phone pattern used by `calculate_pnr_statistics`:
`^\+?[0-9\s-]{7,20}$`. -/
def strictPhoneReg : Reg :=
  .cat (optR (chrR '+'))
      (repRange (.cls fun c => c.isDigit || isPySpace c || c == '-') 7 13)

/-- Unanchored Django lookup `contact_detail__regex=r'\d{7,}'`
(`re.search`): the string contains at least seven consecutive digits. -/
def hasDigitRun7 : List Char → Bool
  | [] => false
  | c :: cs => (((c :: cs).take 7).length == 7 && ((c :: cs).take 7).all Char.isDigit)
               || hasDigitRun7 cs

/-! ### Data model (`models.py`) -/

/-- Contact information for PNR communication (`Contact`). -/
structure Contact where
  contact_type : String
  contact_detail : String
deriving DecidableEq

/-- Passenger information associated with a PNR (`Passenger`). -/
structure Passenger where
  surname : String
  first_name : String
  ff_number : String
  ff_tier : String
  board_point : String
  off_point : String
  seat_row_number : String
  seat_column : String
  meal : String
deriving DecidableEq

/-- A calendar date as produced by `datetime.strptime(...).date()`. -/
structure PDate where
  year : Nat
  month : Nat
  day : Nat
deriving DecidableEq

/-- Passenger Name Record (`PNR`), owning its contacts and passengers. -/
structure PNR where
  control_number : String
  office_id : String
  agent : String
  creation_date : Option PDate
  delivery_system_company : String
  delivery_system_location : String
  contacts : List Contact
  passengers : List Passenger
deriving DecidableEq

/-- `Contact.EMAIL_VALID_TYPES`. -/
def EMAIL_VALID_TYPES : List String := ["AP", "APE", "CTCE"]

/-- `Contact.PHONE_VALID_TYPES`. -/
def PHONE_VALID_TYPES : List String := ["AP", "APM", "CTCM"]

/-! ### Contact classification (`Contact` properties) -/

/-- `Contact.is_email`: the lowercased detail contains `@` and `.`,
or contains `//` and `.`. -/
def Contact.is_email (c : Contact) : Bool :=
  let detail := pyLower c.contact_detail.data
  (detail.contains '@' && detail.contains '.')
  || (containsSub ['/', '/'] detail && detail.contains '.')

/-- The five indicator substrings checked first by `Contact.is_phone`. -/
def phoneIndicators : List (List Char) :=
  [['-', 'm'], ['-', 's'], ['t', 'e', 'l'],
   ['p', 'h', 'o', 'n', 'e'], ['m', 'o', 'b', 'i', 'l', 'e']]

/-- `Contact.is_phone`: an indicator substring in the lowercased detail, or,
after removing separators and the carrier/locale markers, a non-empty
remainder that is more than 70% digits with at least 7 digits
(the float test `digit_count / len(cleaned) > 0.7` is the exact rational
test `10 * digit_count > 7 * len(cleaned)` on these lengths). -/
def Contact.is_phone (c : Contact) : Bool :=
  let detail := pyLower c.contact_detail.data
  if phoneIndicators.any (fun ind => containsSub ind detail) then true
  else
    let cleaned := c.contact_detail.data.filter (fun ch => !isSepChar ch)
    let cleaned := stripCarrierMarker cleaned
    let cleaned := stripLocaleMarker cleaned
    let digit_count := (cleaned.filter Char.isDigit).length
    decide (0 < cleaned.length) && decide (7 * cleaned.length < 10 * digit_count)
      && decide (7 ≤ digit_count)

/-- `Contact.is_valid_email`: email shape, an email-valid declared type, and
the normalized detail (after `//`→`@`, marker stripping and `strip()`)
matches `EMAIL_PATTERN`. -/
def Contact.is_valid_email (c : Contact) : Bool :=
  if !c.is_email || !EMAIL_VALID_TYPES.contains c.contact_type then false
  else
    let email := replaceSlashesAt c.contact_detail.data
    let email := stripCarrierMarker email
    let email := stripLocaleMarker email
    let email := stripUsageMarker email
    matchList (pyStrip email) EMAIL_PATTERN

/-- `Contact.is_valid_phone`: phone shape, a phone-valid declared type, and
the normalized detail matches `^\+?[0-9\s\-\(\)]{7,25}$`. -/
def Contact.is_valid_phone (c : Contact) : Bool :=
  if !c.is_phone || !PHONE_VALID_TYPES.contains c.contact_type then false
  else
    let phone := stripCarrierMarker c.contact_detail.data
    let phone := stripLocaleMarker phone
    let phone := stripUsageMarker phone
    matchList (pyStrip phone) phoneValidReg

/-- `Contact.is_wrongly_placed`: a detected shape under a declared type that
is not valid for that shape. -/
def Contact.is_wrongly_placed (c : Contact) : Bool :=
  (c.is_email && !EMAIL_VALID_TYPES.contains c.contact_type)
  || (c.is_phone && !PHONE_VALID_TYPES.contains c.contact_type)

/-- `Contact.get_valid_contact_q`: the shared Q-object predicate for a
valid contact (email-typed detail matching the enhanced email pattern, or
phone-typed detail matching the enhanced phone pattern). -/
def get_valid_contact_q (c : Contact) : Bool :=
  (EMAIL_VALID_TYPES.contains c.contact_type && matchList c.contact_detail.data emailQReg)
  || (PHONE_VALID_TYPES.contains c.contact_type && matchList c.contact_detail.data phoneQReg)

/-! ### Quality scoring: the per-row property and the bulk annotation -/

/-- `PNR.has_valid_contacts`: `self.contacts.filter(Contact.get_valid_contact_q()).exists()`. -/
def PNR.has_valid_contacts (p : PNR) : Bool := p.contacts.any get_valid_contact_q

/-- `PNR.quality_score` (the per-row Python property): sequential
`score += w` steps guarded by the four existence checks (`__gt=''` is the
SQL lexicographic comparison against the empty string), clamped with
`min(100, max(0, score))`. -/
def PNR.quality_score (p : PNR) : Int :=
  let s0 : Int := 0
  let s1 := if p.has_valid_contacts then s0 + 40 else s0
  let s2 := if p.passengers.any (fun q => listLt [] q.ff_number.data) then s1 + 20 else s1
  let s3 := if p.passengers.any (fun q => listLt [] q.meal.data) then s2 + 20 else s2
  let s4 := if p.passengers.any
      (fun q => listLt [] q.seat_row_number.data && listLt [] q.seat_column.data)
    then s3 + 20 else s3
  min 100 (max 0 s4)

/-- The bulk annotation `get_quality_score_annotation` of `utils.py`,
evaluated at one PNR: a sum of four `Case(When(Exists(...)))` terms.
`__isnull=False` on a `CharField` is vacuous; `exclude(f='')` is `f ≠ ''`. -/
def get_quality_score_annot (p : PNR) : Int :=
  (if p.contacts.any get_valid_contact_q then 40 else 0)
  + (if p.passengers.any (fun q => q.ff_number != "") then 20 else 0)
  + (if p.passengers.any (fun q => q.meal != "") then 20 else 0)
  + (if p.passengers.any (fun q => q.seat_row_number != "" && q.seat_column != "") then 20 else 0)

/-! ### Aggregation (`views.py`) -/

/-- The wrongly-placed filter of `calculate_pnr_statistics` and
`get_detailed_pnrs_qs`: detail contains `@` under a non-email type, or
detail contains seven consecutive digits under a non-phone type. -/
def wronglyPlacedFilter (c : Contact) : Bool :=
  (c.contact_detail.data.contains '@' && !EMAIL_VALID_TYPES.contains c.contact_type)
  || (hasDigitRun7 c.contact_detail.data && !PHONE_VALID_TYPES.contains c.contact_type)

/-- The PNR–Contact join: one row per related contact, keyed by the
parent's primary key (modelled by the unique `control_number`). -/
def contactJoinRows (pnrs : List PNR) : List (String × Contact) :=
  pnrs.flatMap (fun p => p.contacts.map (fun c => (p.control_number, c)))

/-- `wrongly_placed_contacts` of `calculate_pnr_statistics`:
`Count('pk', filter=..., distinct=True)` — the number of distinct parent
keys among the join rows whose contact passes `wronglyPlacedFilter`. -/
def wrongly_placed_contacts_agg (pnrs : List PNR) : Nat :=
  (((contactJoinRows pnrs).filter (fun rc => wronglyPlacedFilter rc.2)).map
    (fun rc => rc.1)).dedup.length

/-- The five-bin quality distribution of `home_view` (and of
`get_pnr_analytics_data`), over the annotated scores. -/
def quality_distribution (pnrs : List PNR) : Nat × Nat × Nat × Nat × Nat :=
  let scores := pnrs.map get_quality_score_annot
  (scores.countP (fun q => decide (q ≤ 20)),
   scores.countP (fun q => decide (20 < q) && decide (q ≤ 40)),
   scores.countP (fun q => decide (40 < q) && decide (q ≤ 60)),
   scores.countP (fun q => decide (60 < q) && decide (q ≤ 80)),
   scores.countP (fun q => decide (80 < q)))

/-- All contacts of a filtered PNR set (`Count('contacts', filter=...)`
counts join rows, i.e. related contacts). -/
def allContacts (pnrs : List PNR) : List Contact := pnrs.flatMap (fun p => p.contacts)

/-- Base filter of `email_total`: detail contains `@` or `//`. -/
def emailish (c : Contact) : Bool :=
  c.contact_detail.data.contains '@' || containsSub ['/', '/'] c.contact_detail.data

/-- `email_total` of `calculate_pnr_statistics`. -/
def email_total (pnrs : List PNR) : Nat := (allContacts pnrs).countP emailish

/-- The strict valid-email conjunct of `calculate_pnr_statistics`. -/
def strictValidEmail (c : Contact) : Bool :=
  EMAIL_VALID_TYPES.contains c.contact_type && matchList c.contact_detail.data strictEmailReg

/-- `email_wrong_format_count` of `calculate_pnr_statistics`. -/
def email_wrong_format_count (pnrs : List PNR) : Nat :=
  (allContacts pnrs).countP (fun c => emailish c && !strictValidEmail c)

/-- `phone_total` of `calculate_pnr_statistics`. -/
def phone_total (pnrs : List PNR) : Nat :=
  (allContacts pnrs).countP (fun c => hasDigitRun7 c.contact_detail.data)

/-- The strict valid-phone conjunct of `calculate_pnr_statistics`. -/
def strictValidPhone (c : Contact) : Bool :=
  PHONE_VALID_TYPES.contains c.contact_type && matchList c.contact_detail.data strictPhoneReg

/-- `phone_wrong_format_count` of `calculate_pnr_statistics`. -/
def phone_wrong_format_count (pnrs : List PNR) : Nat :=
  (allContacts pnrs).countP (fun c => hasDigitRun7 c.contact_detail.data && !strictValidPhone c)

/-- `email_wrong_format_percent` of `home_view`: guarded division. -/
def email_wrong_format_percent (pnrs : List PNR) : ℚ :=
  if 0 < email_total pnrs then
    (email_wrong_format_count pnrs : ℚ) / (email_total pnrs : ℚ) * 100
  else 0

/-- `phone_wrong_format_percent` of `home_view`: guarded division. -/
def phone_wrong_format_percent (pnrs : List PNR) : ℚ :=
  if 0 < phone_total pnrs then
    (phone_wrong_format_count pnrs : ℚ) / (phone_total pnrs : ℚ) * 100
  else 0

/-- `Avg('calculated_quality_score')`: `None` on an empty set. -/
def avgScore (pnrs : List PNR) : Option ℚ :=
  if pnrs.isEmpty then none
  else some (((pnrs.map get_quality_score_annot).sum : ℚ) / (pnrs.length : ℚ))

/-- `overall_quality = stats.get('overall_quality', 0) or 0` of `home_view`:
a missing or `None` (or zero) average is reported as 0. -/
def overall_quality (pnrs : List PNR) : ℚ :=
  match avgScore pnrs with
  | none => 0
  | some q => q

/-- `PNR.get_reachable_pnrs().count()` restricted to a PNR set. -/
def reachable_count (pnrs : List PNR) : Nat :=
  (pnrs.filter (fun p => p.contacts.any get_valid_contact_q)).length

/-- Result record of `PNR.get_analytics_summary` (the fields the claims
are about). -/
structure AnalyticsSummary where
  total_pnrs : Nat
  total_passengers : Nat
  reachable_pnrs : Nat
  reachability_percentage : ℚ
  passengers_with_meals : Nat
  meal_completion_rate : ℚ
deriving DecidableEq

/-- `PNR.get_analytics_summary`: totals plus division-guarded, clamped
percentage figures. -/
def get_analytics_summary (pnrs : List PNR) : AnalyticsSummary :=
  let total_pnrs := pnrs.length
  let reachable_pnrs := reachable_count pnrs
  let passengers := pnrs.flatMap (fun p => p.passengers)
  let total_passengers := passengers.length
  let passengers_with_meals := (passengers.filter (fun q => q.meal != "")).length
  { total_pnrs := total_pnrs
    total_passengers := total_passengers
    reachable_pnrs := reachable_pnrs
    reachability_percentage :=
      if 0 < total_pnrs then
        min 100 (max 0 ((reachable_pnrs : ℚ) / (total_pnrs : ℚ) * 100))
      else 0
    passengers_with_meals := passengers_with_meals
    meal_completion_rate :=
      if 0 < total_passengers then
        min 100 (max 0 ((passengers_with_meals : ℚ) / (total_passengers : ℚ) * 100))
      else 0 }

/-! ### Date parsing (`views.py parse_date`) -/

/-- Gregorian leap-year test used by `datetime`. -/
def isLeapYear (y : Nat) : Bool := y % 4 == 0 && (y % 100 != 0 || y % 400 == 0)

/-- Number of days of a month in a given year. -/
def daysInMonth (y m : Nat) : Nat :=
  if m == 2 then (if isLeapYear y then 29 else 28)
  else if m == 4 || m == 6 || m == 9 || m == 11 then 30
  else 31

/-- The `%y` two-digit-year pivot of `strptime`: 00–68 map into the
2000s, 69–99 into the 1900s. -/
def pivotYear (yy : Nat) : Nat := if yy ≤ 68 then 2000 + yy else 1900 + yy

/-- `datetime.strptime(_, '%d%m%y').date()` on day/month/two-digit-year
numbers: calendar-valid dates only, otherwise `ValueError` (here `none`). -/
def mkDateDdmmyy (d m yy : Nat) : Option PDate :=
  if 1 ≤ m && m ≤ 12 && 1 ≤ d && d ≤ daysInMonth (pivotYear yy) m then
    some ⟨pivotYear yy, m, d⟩
  else none

/-- Numeric value of a two-digit field. -/
def twoDigits (a b : Char) : Nat := 10 * (a.toNat - 48) + (b.toNat - 48)

/-- `strptime` of a six-character digit string against `'%d%m%y'`. -/
def parseSix : List Char → Option PDate
  | [d1, d2, m1, m2, y1, y2] =>
    mkDateDdmmyy (twoDigits d1 d2) (twoDigits m1 m2) (twoDigits y1 y2)
  | _ => none

/-- `parse_date` of `views.py`: empty input is rejected, non-digits are
stripped, a 5-digit remainder is left-padded with `'0'`, any other
length than 6 yields `None`, and the result is read as `ddmmyy`.
Exceptions are absorbed into `None`. -/
def parse_date (s : String) : Option PDate :=
  if s.data.isEmpty then none
  else if (s.data.filter Char.isDigit).length == 5 then
    parseSix ('0' :: s.data.filter Char.isDigit)
  else if (s.data.filter Char.isDigit).length != 6 then none
  else parseSix (s.data.filter Char.isDigit)

/-! ### Import and deduplication (`views.py upload_excel`) -/

/-- One raw tabular row of the uploaded file, string-typed as read with
`dtype=str` and `fillna('')`. -/
structure Row where
  ControlNumber : String
  OfficeID : String
  Agent : String
  creationDate : String
  DeliverySystemCompany : String
  DeliverySystemLocation : String
  Surname : String
  FirstName : String
  FF_NUMBER : String
  FF_TIER : String
  boardPoint : String
  offPoint : String
  seatRowNumber : String
  seatColumn : String
  MEAL : String
  ContactType : String
  ContactDetail : String
deriving DecidableEq

/-- A created `Passenger` database row, with its foreign key to the PNR
(identified by `control_number`). -/
structure PassengerRow where
  pnr : String
  surname : String
  first_name : String
  ff_number : String
  ff_tier : String
  board_point : String
  off_point : String
  seat_row_number : String
  seat_column : String
  meal : String
deriving DecidableEq

/-- A created `Contact` database row with its foreign key. -/
structure ContactRow where
  pnr : String
  contact_type : String
  contact_detail : String
deriving DecidableEq

/-- The `unique_together = ['pnr', 'surname', 'first_name']` identity key. -/
def passengerKey (p : PassengerRow) : String × String × String :=
  (p.pnr, p.surname, p.first_name)

/-- The contact identity key named by the specification. -/
def contactKey (c : ContactRow) : String × String × String :=
  (c.pnr, c.contact_type, c.contact_detail)

/-- First-occurrence-preserving deduplication, as
`pandas.Series.unique()` on the stripped, non-empty control numbers. -/
def dedupFirst (l : List String) : List String :=
  l.foldl (fun acc s => if acc.contains s then acc else acc ++ [s]) []

/-- First pass of `upload_excel`: the distinct non-empty stripped control
numbers; one PNR is bulk-created per entry. -/
def uniqueControlNumbers (rows : List Row) : List String :=
  dedupFirst ((rows.map (fun r => pyStripStr r.ControlNumber)).filter (fun s => s != ""))

/-- The `Passenger` row built from one raw row (fields stripped as in
`upload_excel`). -/
def rowPassenger (r : Row) : PassengerRow :=
  ⟨pyStripStr r.ControlNumber, pyStripStr r.Surname, pyStripStr r.FirstName,
   pyStripStr r.FF_NUMBER, pyStripStr r.FF_TIER, pyStripStr r.boardPoint,
   pyStripStr r.offPoint, pyStripStr r.seatRowNumber, pyStripStr r.seatColumn,
   pyStripStr r.MEAL⟩

/-- The `Contact` row built from one raw row. -/
def rowContact (r : Row) : ContactRow :=
  ⟨pyStripStr r.ControlNumber, pyStripStr r.ContactType, pyStripStr r.ContactDetail⟩

/-- Second pass of `upload_excel` for passengers, combined with the
`bulk_create(..., ignore_conflicts=True)` semantics: a row violating the
`(pnr, surname, first_name)` unique constraint against an already
inserted row is skipped, never an error; rows with both names empty, or
with an unknown/empty control number, are skipped. -/
def insertPassengerRows (pnrs : List String) : List Row → List PassengerRow → List PassengerRow
  | [], acc => acc
  | r :: rest, acc =>
    if pyStripStr r.ControlNumber == "" || !pnrs.contains (pyStripStr r.ControlNumber) then
      insertPassengerRows pnrs rest acc
    else if pyStripStr r.Surname == "" && pyStripStr r.FirstName == "" then
      insertPassengerRows pnrs rest acc
    else if acc.any (fun q => passengerKey q == passengerKey (rowPassenger r)) then
      insertPassengerRows pnrs rest acc
    else insertPassengerRows pnrs rest (acc ++ [rowPassenger r])

/-- Second pass of `upload_excel` for contacts: the `Contact` model has no
uniqueness constraint, so `ignore_conflicts=True` never drops a row —
every row with a known control number and non-empty type and detail is
inserted. -/
def insertContactRows (pnrs : List String) : List Row → List ContactRow → List ContactRow
  | [], acc => acc
  | r :: rest, acc =>
    if pyStripStr r.ControlNumber == "" || !pnrs.contains (pyStripStr r.ControlNumber) then
      insertContactRows pnrs rest acc
    else if pyStripStr r.ContactType == "" || pyStripStr r.ContactDetail == "" then
      insertContactRows pnrs rest acc
    else insertContactRows pnrs rest (acc ++ [rowContact r])

/-- The import of one uploaded file: created control numbers, passenger
rows and contact rows (existing data is cleared first, so the store
starts empty). -/
def upload_excel (rows : List Row) :
    List String × List PassengerRow × List ContactRow :=
  let pnrs := uniqueControlNumbers rows
  (pnrs, insertPassengerRows pnrs rows [], insertContactRows pnrs rows [])

/-- A demo row with the given control number, names, and contact fields
(the remaining columns carry fixed innocuous values). -/
def mkRow (cn sn fn ct cd : String) : Row :=
  ⟨cn, "NBO001", "AGENT01", "010124", "AMADEUS", "NBO", sn, fn,
   "", "", "", "", "", "", "", ct, cd⟩

/-! ### Specification-side statements of the refined rules -/

/-- The `is_phone` digit rule exactly as the specification claim words it:
an indicator substring in the lowercased string, or, after stripping the
separator characters and the carrier and locale markers, a non-empty
remainder in which at least 70% of the characters are digits and which
has at least 7 digits. -/
def is_phone_rule_atLeast (s : List Char) : Bool :=
  (phoneIndicators.any (fun ind => containsSub ind (pyLower s)))
  || (decide (0 < (stripLocaleMarker (stripCarrierMarker
        (s.filter (fun ch => !isSepChar ch)))).length)
      && decide (7 * (stripLocaleMarker (stripCarrierMarker
            (s.filter (fun ch => !isSepChar ch)))).length
          ≤ 10 * ((stripLocaleMarker (stripCarrierMarker
            (s.filter (fun ch => !isSepChar ch)))).filter Char.isDigit).length)
      && decide (7 ≤ ((stripLocaleMarker (stripCarrierMarker
            (s.filter (fun ch => !isSepChar ch)))).filter Char.isDigit).length))

/-- The amendment that the 70%-boundary counterexample forces: strictly
more than 70% of the remaining characters must be digits. -/
def is_phone_rule_strict (s : List Char) : Bool :=
  (phoneIndicators.any (fun ind => containsSub ind (pyLower s)))
  || (decide (0 < (stripLocaleMarker (stripCarrierMarker
        (s.filter (fun ch => !isSepChar ch)))).length)
      && decide (7 * (stripLocaleMarker (stripCarrierMarker
            (s.filter (fun ch => !isSepChar ch)))).length
          < 10 * ((stripLocaleMarker (stripCarrierMarker
            (s.filter (fun ch => !isSepChar ch)))).filter Char.isDigit).length)
      && decide (7 ≤ ((stripLocaleMarker (stripCarrierMarker
            (s.filter (fun ch => !isSepChar ch)))).filter Char.isDigit).length))

/-- The date-parsing rule as the specification claim words it: strip all
non-digit characters, accept a 6-digit remainder as is and a 5-digit
remainder after left-padding one `'0'`, read the six digits as `ddmmyy`,
and yield no date otherwise. -/
def parse_date_rule (s : String) : Option PDate :=
  if (s.data.filter Char.isDigit).length == 6 then parseSix (s.data.filter Char.isDigit)
  else if (s.data.filter Char.isDigit).length == 5 then
    parseSix ('0' :: s.data.filter Char.isDigit)
  else none

/-! ### Character soundness of the regex matcher

`RegAll P r` says every character class of `r` is contained in `P`; a
string accepted by such an `r` consists of `P`-characters only. -/

/-- Every character class of the expression is contained in `P`. -/
def RegAll (P : Char → Bool) : Reg → Prop
  | .emp => True
  | .eps => True
  | .cls p => ∀ c, p c = true → P c = true
  | .cat a b => RegAll P a ∧ RegAll P b
  | .alt a b => RegAll P a ∧ RegAll P b
  | .star a => RegAll P a

/-- Conservative syntactic emptiness: a `voidLike` expression accepts
nothing. -/
def voidLike : Reg → Bool
  | .emp => true
  | .eps => false
  | .cls _ => false
  | .cat a b => voidLike a || voidLike b
  | .alt a b => voidLike a && voidLike b
  | .star _ => false

/-- Character class of the strings accepted by `phoneValidReg`. -/
def phoneValidChar (c : Char) : Bool :=
  c == '+' || c.isDigit || isPySpace c || c == '-' || c == '(' || c == ')'

/-! ## Theorems -/

/-- Lexicographic comparison against the empty string is non-emptiness. -/
theorem listLt_nil_eq (l : List Char) : listLt [] l = !l.isEmpty := by
  cases l <;> rfl

/-- The ORM tests `exclude(f='')` and `f > ''` agree on every value. -/
theorem bne_empty_eq (s : String) : (s != "") = listLt [] s.data := by
  cases s with
  | mk d => cases d <;> rfl

/-- C1: the bulk/set-based scoring path (`get_quality_score_annotation`)
and the per-row scoring path (`PNR.quality_score`) agree on every PNR
and its related contacts and passengers. -/
theorem quality_score_dual_path_agree (p : PNR) :
    get_quality_score_annot p = p.quality_score := by
  unfold get_quality_score_annot PNR.quality_score PNR.has_valid_contacts
  simp only [bne_empty_eq]
  by_cases h1 : p.contacts.any get_valid_contact_q <;>
    by_cases h2 : p.passengers.any (fun q => listLt [] q.ff_number.data) <;>
      by_cases h3 : p.passengers.any (fun q => listLt [] q.meal.data) <;>
        by_cases h4 : p.passengers.any (fun q => listLt [] q.seat_row_number.data
            && listLt [] q.seat_column.data) <;>
          simp [h1, h2, h3, h4]

/-- C2: the quality score is exactly the sum of the weights 40/20/20/20
of the four signals that hold, an all-true PNR scores 100, an all-false
PNR scores 0, and the score is always an integer in [0, 100]. -/
theorem quality_score_weights :
    (∀ p : PNR,
      p.quality_score =
        (if p.has_valid_contacts then (40 : Int) else 0)
        + (if p.passengers.any (fun q => listLt [] q.ff_number.data) then 20 else 0)
        + (if p.passengers.any (fun q => listLt [] q.meal.data) then 20 else 0)
        + (if p.passengers.any (fun q => listLt [] q.seat_row_number.data
            && listLt [] q.seat_column.data) then 20 else 0)
      ∧ 0 ≤ p.quality_score ∧ p.quality_score ≤ 100)
    ∧ (PNR.mk "ALL" "" "" none "" "" [Contact.mk "APE" "test@example.com"]
        [Passenger.mk "DOE" "JOHN" "FF123456" "" "" "" "12" "A" "AVML"]).quality_score = 100
    ∧ (PNR.mk "NONE" "" "" none "" "" [] []).quality_score = 0 := by
  refine ⟨fun p => ?_, by decide, by decide⟩
  unfold PNR.quality_score PNR.has_valid_contacts
  by_cases h1 : p.contacts.any get_valid_contact_q <;>
    by_cases h2 : p.passengers.any (fun q => listLt [] q.ff_number.data) <;>
      by_cases h3 : p.passengers.any (fun q => listLt [] q.meal.data) <;>
        by_cases h4 : p.passengers.any (fun q => listLt [] q.seat_row_number.data
            && listLt [] q.seat_column.data) <;>
          simp [h1, h2, h3, h4]

/-! ### Soundness lemmas for the derivative matcher -/

/-- A `voidLike` expression does not accept the empty string. -/
theorem voidLike_not_nullable {r : Reg} (h : voidLike r = true) : r.nullable = false := by
  induction r with
  | emp => rfl
  | eps => simp [voidLike] at h
  | cls p => simp [voidLike] at h
  | cat a b iha ihb =>
    simp only [voidLike, Bool.or_eq_true] at h
    rcases h with h | h
    · simp [Reg.nullable, iha h]
    · simp [Reg.nullable, ihb h]
  | alt a b iha ihb =>
    simp only [voidLike, Bool.and_eq_true] at h
    simp [Reg.nullable, iha h.1, ihb h.2]
  | star a ih => simp [voidLike] at h

/-- `voidLike` is preserved by derivatives. -/
theorem voidLike_step {r : Reg} (c : Char) (h : voidLike r = true) :
    voidLike (r.step c) = true := by
  induction r with
  | emp => rfl
  | eps => simp [voidLike] at h
  | cls p => simp [voidLike] at h
  | cat a b iha ihb =>
    simp only [voidLike, Bool.or_eq_true] at h
    rcases h with h | h
    · simp [Reg.step, Bool.not_eq_true, voidLike_not_nullable h, voidLike, iha h]
    · by_cases hn : a.nullable <;> simp [Reg.step, hn, voidLike, ihb h, h]
  | alt a b iha ihb =>
    simp only [voidLike, Bool.and_eq_true] at h
    simp [Reg.step, voidLike, iha h.1, ihb h.2]
  | star a ih => simp [voidLike] at h

/-- A `voidLike` expression accepts no string. -/
theorem voidLike_matchList {l : List Char} {r : Reg} (h : voidLike r = true) :
    matchList l r = false := by
  induction l generalizing r with
  | nil => simpa [matchList] using voidLike_not_nullable h
  | cons c cs ih => simpa [matchList] using ih (voidLike_step c h)

/-- `RegAll` is preserved by derivatives. -/
theorem RegAll.rstep {P : Char → Bool} {r : Reg} (h : RegAll P r) (c : Char) :
    RegAll P (r.step c) := by
  induction r with
  | emp => trivial
  | eps => trivial
  | cls p =>
    show RegAll P (if p c then .eps else .emp)
    split <;> trivial
  | cat a b iha ihb =>
    obtain ⟨ha, hb⟩ := h
    show RegAll P (if a.nullable then .alt (.cat (a.step c) b) (b.step c)
                   else .cat (a.step c) b)
    split
    · exact ⟨⟨iha ha, hb⟩, ihb hb⟩
    · exact ⟨iha ha, hb⟩
  | alt a b iha ihb =>
    obtain ⟨ha, hb⟩ := h
    exact ⟨iha ha, ihb hb⟩
  | star a ih => exact ⟨ih h, h⟩

/-- At a character outside `P`, the derivative of a `RegAll P`
expression is `voidLike`. -/
theorem step_voidLike_of_not {P : Char → Bool} {r : Reg} {c : Char}
    (hr : RegAll P r) (hc : P c = false) : voidLike (r.step c) = true := by
  induction r with
  | emp => rfl
  | eps => rfl
  | cls p =>
    have hp : p c = false := by
      by_contra hne
      exact absurd (hr c (Bool.of_not_eq_false hne)) (by simp [hc])
    simp [Reg.step, hp, voidLike]
  | cat a b iha ihb =>
    obtain ⟨ha, hb⟩ := hr
    by_cases hn : a.nullable <;> simp [Reg.step, hn, voidLike, iha ha, ihb hb]
  | alt a b iha ihb =>
    obtain ⟨ha, hb⟩ := hr
    simp [Reg.step, voidLike, iha ha, ihb hb]
  | star a ih => simp [Reg.step, voidLike, ih hr]

/-- A string accepted by a `RegAll P` expression consists of
`P`-characters only. -/
theorem matchList_all {P : Char → Bool} {l : List Char} {r : Reg}
    (hm : matchList l r = true) (hr : RegAll P r) : l.all P = true := by
  induction l generalizing r with
  | nil => rfl
  | cons c cs ih =>
    rw [matchList] at hm
    by_cases hc : P c = true
    · simp only [List.all_cons, hc, Bool.true_and]
      exact ih hm (hr.rstep c)
    · exact absurd hm (by
        simp [voidLike_matchList (step_voidLike_of_not hr (Bool.not_eq_true _ ▸ hc))])

/-- `RegAll` for a literal character. -/
theorem RegAll_chrR {P : Char → Bool} {c : Char} (h : P c = true) : RegAll P (chrR c) := by
  intro d hd
  rwa [show d = c by simpa using hd]

/-- `RegAll` for an optional piece. -/
theorem RegAll_optR {P : Char → Bool} {a : Reg} (h : RegAll P a) : RegAll P (optR a) :=
  ⟨h, trivial⟩

/-- `RegAll` for exact repetition. -/
theorem RegAll_repN {P : Char → Bool} {a : Reg} (h : RegAll P a) :
    ∀ n, RegAll P (repN a n)
  | 0 => trivial
  | n + 1 => ⟨h, RegAll_repN h n⟩

/-- `RegAll` for bounded optional repetition. -/
theorem RegAll_optN {P : Char → Bool} {a : Reg} (h : RegAll P a) :
    ∀ n, RegAll P (optN a n)
  | 0 => trivial
  | n + 1 => ⟨RegAll_optR h, RegAll_optN h n⟩

/-- `RegAll` for a repetition range. -/
theorem RegAll_repRange {P : Char → Bool} {a : Reg} (h : RegAll P a) (lo extra : Nat) :
    RegAll P (repRange a lo extra) :=
  ⟨RegAll_repN h lo, RegAll_optN h extra⟩

/-- Every character class of `phoneValidReg` is contained in `phoneValidChar`. -/
theorem RegAll_phoneValidReg : RegAll phoneValidChar phoneValidReg := by
  refine ⟨RegAll_optR (RegAll_chrR (by decide)), RegAll_repRange ?_ 7 18⟩
  intro c h
  simp only [phoneCls] at h
  simp only [phoneValidChar, Bool.or_eq_true] at h ⊢
  tauto

/-! ### Characters surviving the marker-stripping steps -/

/-- A character failing the predicate survives `dropWhile`. -/
theorem mem_dropWhile_of_not {p : Char → Bool} {l : List Char} {a : Char}
    (h : a ∈ l) (hp : p a = false) : a ∈ l.dropWhile p := by
  have h2 : a ∈ l.takeWhile p ++ l.dropWhile p := by
    rw [List.takeWhile_append_dropWhile]; exact h
  rcases List.mem_append.mp h2 with h3 | h3
  · exact absurd (List.mem_takeWhile_imp h3) (by simp [hp])
  · exact h3

/-- A non-whitespace character survives `str.strip()`. -/
theorem mem_pyStrip {l : List Char} {a : Char} (h : a ∈ l) (hs : isPySpace a = false) :
    a ∈ pyStrip l := by
  unfold pyStrip
  rw [List.mem_reverse]
  exact mem_dropWhile_of_not (List.mem_reverse.mpr (mem_dropWhile_of_not h hs)) hs

/-- A character that is not uppercase, `/` or `+` survives the carrier
marker stripping. -/
theorem mem_stripCarrierMarker {l : List Char} {a : Char} (h : a ∈ l)
    (h1 : isUpperAZ a = false) (h2 : a ≠ '/') (h3 : a ≠ '+') :
    a ∈ stripCarrierMarker l := by
  unfold stripCarrierMarker
  split
  · rename_i c rest hdrop
    split
    · rename_i hcond
      simp only [Bool.and_eq_true, Bool.not_eq_true'] at hcond
      have hmem : a ∈ l.takeWhile isUpperAZ ++ '/' :: c :: '+' :: rest := by
        rw [← hdrop, List.takeWhile_append_dropWhile]; exact h
      rcases List.mem_append.mp hmem with hL | hR
      · exact absurd (List.mem_takeWhile_imp hL) (by simp [h1])
      · simp only [List.mem_cons] at hR
        rcases hR with rfl | rfl | rfl | hR
        · exact absurd rfl h2
        · exact absurd hcond.2 (by simp [h1])
        · exact absurd rfl h3
        · exact hR
    · exact h
  · exact h

/-- A character that is not uppercase or `/` survives the locale marker
stripping. -/
theorem mem_stripLocaleMarker {l : List Char} {a : Char} (h : a ∈ l)
    (h1 : isUpperAZ a = false) (h2 : a ≠ '/') :
    a ∈ stripLocaleMarker l := by
  unfold stripLocaleMarker
  split
  · rename_i rest hdrop
    split
    · have hmem : a ∈ l.reverse.takeWhile isUpperAZ ++ '/' :: rest := by
        rw [← hdrop, List.takeWhile_append_dropWhile]
        exact List.mem_reverse.mpr h
      rcases List.mem_append.mp hmem with hL | hR
      · exact absurd (List.mem_takeWhile_imp hL) (by simp [h1])
      · simp only [List.mem_cons] at hR
        rcases hR with rfl | hR
        · exact absurd rfl h2
        · exact List.mem_reverse.mpr hR
    · exact h
  · exact h

/-- A character that is not uppercase or `-` survives the usage marker
stripping. -/
theorem mem_stripUsageMarker {l : List Char} {a : Char} (h : a ∈ l)
    (h1 : isUpperAZ a = false) (h2 : a ≠ '-') :
    a ∈ stripUsageMarker l := by
  unfold stripUsageMarker
  split
  · rename_i c rest hrev
    split
    · rename_i hup
      have hmem : a ∈ c :: '-' :: rest := by rw [← hrev]; exact List.mem_reverse.mpr h
      simp only [List.mem_cons] at hmem
      rcases hmem with rfl | rfl | hmem
      · exact absurd hup (by simp [h1])
      · exact absurd rfl h2
      · exact List.mem_reverse.mpr hmem
    · exact h
  · exact h

/-! ### ASCII lowering preserves non-letter characters -/

/-- `Char.ofNat` round-trips on valid code points. -/
theorem toNat_ofNat_valid (n : Nat) (h : n.isValidChar) : (Char.ofNat n).toNat = n := by
  rw [Char.ofNat, dif_pos h]; rfl

/-- Only the dot lowercases to a dot. -/
theorem toLower_eq_dot {c : Char} (h : Char.toLower c = '.') : c = '.' := by
  simp only [Char.toLower] at h
  split at h
  · rename_i hr
    have hv : (c.toNat + 32).isValidChar := Or.inl (by omega)
    have h2 := congrArg Char.toNat h
    rw [toNat_ofNat_valid _ hv, show ('.' : Char).toNat = 46 from rfl] at h2
    omega
  · exact h

/-- A string without a dot lowercases to a string without a dot. -/
theorem dot_not_mem_pyLower {l : List Char} (h : '.' ∉ l) : '.' ∉ pyLower l := by
  intro hmem
  rcases List.mem_map.mp hmem with ⟨c, hc, hcl⟩
  exact h (toLower_eq_dot hcl ▸ hc)

/-- A contact that is a valid phone has no email shape: its detail,
surviving marker stripping and matching the phone pattern, cannot
contain a dot. -/
theorem valid_phone_not_email {c : Contact} (h : c.is_valid_phone = true) :
    c.is_email = false := by
  unfold Contact.is_valid_phone at h
  split at h
  · exact absurd h (by simp)
  · have hall := matchList_all h RegAll_phoneValidReg
    have hdot : '.' ∉ c.contact_detail.data := by
      intro hmem
      have m1 := mem_stripCarrierMarker hmem (by decide) (by decide) (by decide)
      have m2 := mem_stripLocaleMarker m1 (by decide) (by decide)
      have m3 := mem_stripUsageMarker m2 (by decide) (by decide)
      have m4 := mem_pyStrip m3 (by decide)
      exact absurd (List.all_eq_true.mp hall _ m4) (by decide)
    have hcont : (pyLower c.contact_detail.data).contains '.' = false := by
      simpa using dot_not_mem_pyLower hdot
    simp only [Contact.is_email]
    rw [hcont]
    simp

/-- C3 counterexample: a contact can be valid under its own declared type
and wrongly placed at the same time — `CTCE` with the digit-heavy email
`1234567@8.ab` is a valid email and also phone-shaped, hence wrongly
placed for the phone shape. -/
theorem valid_email_wrongly_placed_overlap :
    ¬ ∀ c : Contact, (c.is_valid_email = true → c.is_wrongly_placed = false)
        ∧ (c.is_valid_phone = true → c.is_wrongly_placed = false) := by
  intro hall
  exact absurd ((hall (Contact.mk "CTCE" "1234567@8.ab")).1 (by decide)) (by decide)

/-- C3 amended: a valid phone is never wrongly placed, and a valid email
is never wrongly placed through the email clause (its declared type is
email-valid) — but a valid email may still be wrongly placed through an
additional phone shape. -/
theorem valid_contact_placement_amended (c : Contact) :
    (c.is_valid_phone = true → c.is_wrongly_placed = false)
    ∧ (c.is_valid_email = true → EMAIL_VALID_TYPES.contains c.contact_type = true) := by
  constructor
  · intro h
    have hemail := valid_phone_not_email h
    have htype : PHONE_VALID_TYPES.contains c.contact_type = true := by
      unfold Contact.is_valid_phone at h
      split at h
      · exact absurd h (by simp)
      · rename_i hcond
        simp only [Bool.not_eq_true, Bool.or_eq_false_iff, Bool.not_eq_false'] at hcond
        exact hcond.2
    unfold Contact.is_wrongly_placed
    rw [hemail, htype]
    simp
  · intro h
    unfold Contact.is_valid_email at h
    split at h
    · exact absurd h (by simp)
    · rename_i hcond
      simp only [Bool.not_eq_true, Bool.or_eq_false_iff, Bool.not_eq_false'] at hcond
      exact hcond.2

/-- Witness for the amended C3 theorem at concrete contacts. -/
theorem valid_contact_placement_amended_witness :
    (Contact.mk "APM" "+254700000000").is_wrongly_placed = false
    ∧ EMAIL_VALID_TYPES.contains (Contact.mk "APE" "test@example.com").contact_type = true :=
  ⟨(valid_contact_placement_amended (Contact.mk "APM" "+254700000000")).1 (by decide),
   (valid_contact_placement_amended (Contact.mk "APE" "test@example.com")).2 (by decide)⟩

/-- C4 counterexample: at the exact 70% digit-ratio boundary the code
rejects while the claimed "at least 70%" rule accepts — `1234567abc`
has exactly 7 digits among 10 characters. -/
theorem is_phone_ratio_boundary :
    ¬ ∀ c : Contact, c.is_phone = is_phone_rule_atLeast c.contact_detail.data := by
  intro h
  exact absurd (h (Contact.mk "AP" "1234567abc")) (by decide)

/-- C4 amended: `is_phone` is the indicator-substring check or the
digit-density rule with a strictly-more-than-70% ratio (and at least 7
digits in a non-empty separator- and marker-stripped remainder). -/
theorem is_phone_rule_amended (c : Contact) :
    c.is_phone = is_phone_rule_strict c.contact_detail.data := by
  unfold Contact.is_phone is_phone_rule_strict
  by_cases h : phoneIndicators.any
      (fun ind => containsSub ind (pyLower c.contact_detail.data)) <;>
    simp [h]

/-! ### Import deduplication lemmas -/

/-- The passenger insertion maintains at most one row per identity key. -/
theorem countP_insertPassengerRows (pnrs : List String) (rows : List Row)
    (acc : List PassengerRow) (k : String × String × String)
    (hacc : acc.countP (fun p => passengerKey p == k) ≤ 1) :
    (insertPassengerRows pnrs rows acc).countP (fun p => passengerKey p == k) ≤ 1 := by
  induction rows generalizing acc with
  | nil => exact hacc
  | cons r rest ih =>
    rw [insertPassengerRows]
    split
    · exact ih acc hacc
    · split
      · exact ih acc hacc
      · split
        · exact ih acc hacc
        · rename_i hnotany
          apply ih
          rw [List.countP_append]
          by_cases hk : passengerKey (rowPassenger r) == k
          · have hk' : passengerKey (rowPassenger r) = k := by simpa using hk
            have hzero : acc.countP (fun p => passengerKey p == k) = 0 := by
              rw [List.countP_eq_zero]
              intro p hp hpk
              exact hnotany (List.any_eq_true.mpr ⟨p, hp, by rw [hk']; exact hpk⟩)
            simp [hzero, hk]
          · have h1 : List.countP (fun p => passengerKey p == k) [rowPassenger r] = 0 := by
              simp only [List.countP_cons, List.countP_nil]
              simp [hk]
            rw [h1]
            simpa using hacc

/-- The contact insertion appends one row per qualifying raw row. -/
theorem length_insertContactRows (pnrs : List String) (rows : List Row)
    (acc : List ContactRow) :
    (insertContactRows pnrs rows acc).length =
      acc.length + rows.countP (fun r =>
        !(pyStripStr r.ControlNumber == "" || !pnrs.contains (pyStripStr r.ControlNumber))
        && !(pyStripStr r.ContactType == "" || pyStripStr r.ContactDetail == "")) := by
  induction rows generalizing acc with
  | nil => simp [insertContactRows]
  | cons r rest ih =>
    rw [insertContactRows]
    split
    · rename_i hskip
      have hpred : (!(pyStripStr r.ControlNumber == ""
            || !pnrs.contains (pyStripStr r.ControlNumber))
          && !(pyStripStr r.ContactType == "" || pyStripStr r.ContactDetail == "")) = false := by
        rw [hskip]; rfl
      rw [ih]
      simp only [List.countP_cons, hpred]
      simp
    · rename_i hskip
      have hX := Bool.eq_false_iff.mpr hskip
      split
      · rename_i hskip2
        have hpred : (!(pyStripStr r.ControlNumber == ""
              || !pnrs.contains (pyStripStr r.ControlNumber))
            && !(pyStripStr r.ContactType == "" || pyStripStr r.ContactDetail == "")) = false := by
          rw [hX, hskip2]; rfl
        rw [ih]
        simp only [List.countP_cons, hpred]
        simp
      · rename_i hskip2
        have hY := Bool.eq_false_iff.mpr hskip2
        have hpred : (!(pyStripStr r.ControlNumber == ""
              || !pnrs.contains (pyStripStr r.ControlNumber))
            && !(pyStripStr r.ContactType == "" || pyStripStr r.ContactDetail == "")) = true := by
          rw [hX, hY]; rfl
        rw [ih]
        simp only [List.countP_cons, hpred]
        simp [List.length_append]
        omega

/-- C5 counterexample: two identical raw rows produce two identical
contact rows with the same `(control_number, contact_type,
contact_detail)` key — the import does not deduplicate contacts, since
the `Contact` model carries no uniqueness constraint for
`ignore_conflicts` to act on. -/
theorem contact_duplicates_inserted :
    ¬ ∀ (rows : List Row) (k : String × String × String),
        ((upload_excel rows).2.2.countP (fun c => contactKey c == k)) ≤ 1 := by
  intro h
  exact absurd (h [mkRow "PNR1" "DOE" "JOHN" "APE" "john@example.com",
                   mkRow "PNR1" "DOE" "JOHN" "APE" "john@example.com"]
      ("PNR1", "APE", "john@example.com")) (by decide)

/-- C5 amended: passengers are inserted at most once per
`(control_number, surname, first_name)` key, duplicates dropped and the
batch never aborted, and the claim's three-row example yields exactly
two passenger records; contacts, by contrast, are inserted once per
qualifying raw row, duplicates included. -/
theorem import_dedup_amended :
    (∀ (rows : List Row) (k : String × String × String),
      ((upload_excel rows).2.1.countP (fun p => passengerKey p == k)) ≤ 1)
    ∧ ((upload_excel [mkRow "PNR1" "DOE" "JOHN" "APE" "john@example.com",
          mkRow "PNR1" "DOE" "JOHN" "APM" "+254700000000",
          mkRow "PNR1" "SMITH" "JANE" "APE" "jane@example.com"]).2.1.length = 2)
    ∧ (∀ rows : List Row,
        (upload_excel rows).2.2.length =
          rows.countP (fun r =>
            !(pyStripStr r.ControlNumber == ""
              || !(uniqueControlNumbers rows).contains (pyStripStr r.ControlNumber))
            && !(pyStripStr r.ContactType == "" || pyStripStr r.ContactDetail == ""))) := by
  refine ⟨fun rows k => ?_, by decide, fun rows => ?_⟩
  · exact countP_insertPassengerRows _ _ _ _ (by simp)
  · simpa using length_insertContactRows (uniqueControlNumbers rows) rows []

/-! ### Distinct-count lemmas for the aggregator -/

/-- A projected filtered join row carries a control number of the set. -/
theorem mem_join_fst {pnrs : List PNR} {x : String}
    (h : x ∈ ((contactJoinRows pnrs).filter (fun rc => wronglyPlacedFilter rc.2)).map
          (fun rc => rc.1)) :
    x ∈ pnrs.map PNR.control_number := by
  rcases List.mem_map.mp h with ⟨rc, hrc, rfl⟩
  rcases List.mem_flatMap.mp (List.mem_filter.mp hrc).1 with ⟨p, hp, hx⟩
  rcases List.mem_map.mp hx with ⟨c, _, rfl⟩
  exact List.mem_map.mpr ⟨p, hp, rfl⟩

/-- Deduplicated length of a constant block followed by a block not
containing the constant. -/
theorem dedup_length_const_append {a : String} {L1 L2 : List String}
    (h1 : ∀ x ∈ L1, x = a) (h2 : a ∉ L2) :
    (L1 ++ L2).dedup.length = (if L1.isEmpty then 0 else 1) + L2.dedup.length := by
  induction L1 with
  | nil => simp
  | cons b L1' ih =>
    have hb : b = a := h1 b (by simp)
    subst hb
    rw [List.cons_append]
    rcases hL1 : L1' with _ | ⟨c, L1''⟩
    · rw [List.nil_append, List.dedup_cons_of_not_mem h2]
      simp [Nat.add_comm]
    · have hc : c = b := h1 c (by simp [hL1])
      have hmem : b ∈ L1' ++ L2 := by
        rw [hL1]
        exact List.mem_append_left _ (by simp [hc])
      rw [← hL1, List.dedup_cons_of_mem hmem,
        ih (fun x hx => h1 x (by simp [hx]))]
      simp [hL1]

/-- C6 counterexample: the aggregator's wrongly-placed count uses its own
`'@'`-containment and digit-run predicates, which disagree with the
per-contact `is_wrongly_placed` property — a `CTCM` contact with detail
`a@b` (no dot, so no email shape, and no digit run) is counted by the
aggregator but has `is_wrongly_placed = False`. -/
theorem wrongly_placed_agg_mismatch :
    ¬ ∀ pnrs : List PNR, (pnrs.map PNR.control_number).Nodup →
        wrongly_placed_contacts_agg pnrs =
          (pnrs.filter (fun p => p.contacts.any Contact.is_wrongly_placed)).length := by
  intro h
  exact absurd
    (h [PNR.mk "P1" "" "" none "" "" [Contact.mk "CTCM" "a@b"] []] (by decide))
    (by decide)

/-- C6 amended: over a set of PNRs with distinct control numbers, the
aggregator's wrongly-placed count equals the number of PNRs having at
least one contact satisfying the aggregator's own predicate —
`'@'` in the detail under a non-email type, or seven consecutive digits
under a non-phone type — which overcounts relative to
`is_wrongly_placed`. -/
theorem wrongly_placed_agg_amended (pnrs : List PNR)
    (h : (pnrs.map PNR.control_number).Nodup) :
    wrongly_placed_contacts_agg pnrs =
      (pnrs.filter (fun p => p.contacts.any wronglyPlacedFilter)).length := by
  induction pnrs with
  | nil => rfl
  | cons p ps ih =>
    rw [List.map_cons, List.nodup_cons] at h
    obtain ⟨hnot, hnodup⟩ := h
    unfold wrongly_placed_contacts_agg
    have hjoin : contactJoinRows (p :: ps)
        = p.contacts.map (fun c => (p.control_number, c)) ++ contactJoinRows ps := by
      simp [contactJoinRows]
    rw [hjoin, List.filter_append, List.map_append]
    have h1 : ∀ x ∈ ((p.contacts.map (fun c => (p.control_number, c))).filter
        (fun rc => wronglyPlacedFilter rc.2)).map (fun rc => rc.1),
        x = p.control_number := by
      intro x hx
      rcases List.mem_map.mp hx with ⟨rc, hrc, rfl⟩
      rcases List.mem_map.mp (List.mem_filter.mp hrc).1 with ⟨c, _, rfl⟩
      rfl
    have h2 : p.control_number ∉ ((contactJoinRows ps).filter
        (fun rc => wronglyPlacedFilter rc.2)).map (fun rc => rc.1) :=
      fun hx => hnot (mem_join_fst hx)
    rw [dedup_length_const_append h1 h2]
    have hagg : (((contactJoinRows ps).filter (fun rc => wronglyPlacedFilter rc.2)).map
          (fun rc => rc.1)).dedup.length
        = (ps.filter (fun q => q.contacts.any wronglyPlacedFilter)).length := ih hnodup
    rw [hagg, List.filter_cons]
    by_cases hany : p.contacts.any wronglyPlacedFilter
    · have hne : (p.contacts.filter wronglyPlacedFilter) ≠ [] := by
        rcases List.any_eq_true.mp hany with ⟨c, hc, hpc⟩
        intro hnil
        exact absurd hpc (List.filter_eq_nil_iff.mp hnil c hc)
      have hempty : (((p.contacts.map (fun c => (p.control_number, c))).filter
          (fun rc => wronglyPlacedFilter rc.2)).map (fun rc => rc.1)).isEmpty = false := by
        rw [List.filter_map]
        simp only [List.isEmpty_eq_false, ne_eq, List.map_eq_nil_iff]
        exact fun hnil => hne (by simpa [Function.comp] using hnil)
      rw [hempty]
      simp [hany, Nat.add_comm]
    · have hempty : (((p.contacts.map (fun c => (p.control_number, c))).filter
          (fun rc => wronglyPlacedFilter rc.2)).map (fun rc => rc.1)).isEmpty = true := by
        rw [List.filter_map]
        simp only [List.isEmpty_iff, List.map_eq_nil_iff, List.filter_eq_nil_iff]
        intro c hc
        simp only [Function.comp]
        intro hpc
        exact absurd (List.any_eq_true.mpr ⟨c, hc, hpc⟩) hany
      rw [hempty]
      simp [hany]

/-- Witness for the amended C6 theorem at a concrete PNR set. -/
theorem wrongly_placed_agg_amended_witness :
    wrongly_placed_contacts_agg
        [PNR.mk "P1" "" "" none "" "" [Contact.mk "CTCM" "a@b"] [],
         PNR.mk "P2" "" "" none "" "" [Contact.mk "APE" "x@y.com"] []]
      = ([PNR.mk "P1" "" "" none "" "" [Contact.mk "CTCM" "a@b"] [],
          PNR.mk "P2" "" "" none "" "" [Contact.mk "APE" "x@y.com"] []].filter
          (fun p => p.contacts.any wronglyPlacedFilter)).length :=
  wrongly_placed_agg_amended _ (by decide)

/-! ### Date parsing -/

/-- C7: `parse_date` strips all non-digit characters, accepts a 6-digit
remainder or a left-padded 5-digit remainder read as `ddmmyy`, yields no
date for every other input, and never raises; `"010124"` and `"10124"`
parse to 2024-01-01 and `"abc"` parses to no date. -/
theorem parse_date_spec :
    (∀ s : String, parse_date s = parse_date_rule s)
    ∧ parse_date "010124" = some ⟨2024, 1, 1⟩
    ∧ parse_date "10124" = some ⟨2024, 1, 1⟩
    ∧ parse_date "abc" = none := by
  refine ⟨fun s => ?_, by decide, by decide, by decide⟩
  unfold parse_date parse_date_rule
  by_cases hemp : s.data.isEmpty = true
  · have hd : s.data = [] := List.isEmpty_iff.mp hemp
    simp [hd]
  · simp only [hemp, if_false]
    by_cases h6 : (s.data.filter Char.isDigit).length = 6
    · have h5 : ((s.data.filter Char.isDigit).length == 5) = false := by
        simp [h6]
      simp [h5, h6]
    · by_cases h5 : (s.data.filter Char.isDigit).length = 5
      · simp [h5]
      · simp [h5, h6]

/-- `mkDateDdmmyy` produces the pivoted year. -/
theorem mkDateDdmmyy_year {d m yy : Nat} {p : PDate}
    (h : mkDateDdmmyy d m yy = some p) : p.year = pivotYear yy := by
  unfold mkDateDdmmyy at h
  split at h
  · cases h
    rfl
  · cases h

/-- A digit character has a code point between 48 and 57. -/
theorem isDigit_toNat_bounds {c : Char} (h : c.isDigit = true) :
    48 ≤ c.toNat ∧ c.toNat ≤ 57 := by
  simp [Char.isDigit] at h
  exact ⟨h.1, h.2⟩

/-- Two digit characters denote a number up to 99. -/
theorem twoDigits_le_99 {a b : Char} (ha : a.isDigit = true) (hb : b.isDigit = true) :
    twoDigits a b ≤ 99 := by
  obtain ⟨ha1, ha2⟩ := isDigit_toNat_bounds ha
  obtain ⟨hb1, hb2⟩ := isDigit_toNat_bounds hb
  unfold twoDigits
  omega

/-- A date produced by `parseSix` from digit characters has a pivoted
two-digit year. -/
theorem parseSix_year {l : List Char} {p : PDate} (h : parseSix l = some p)
    (hd : ∀ c ∈ l, c.isDigit = true) :
    ∃ yy, yy ≤ 99 ∧ p.year = pivotYear yy := by
  unfold parseSix at h
  split at h
  · rename_i d1 d2 m1 m2 y1 y2
    refine ⟨twoDigits y1 y2, ?_, mkDateDdmmyy_year h⟩
    exact twoDigits_le_99 (hd y1 (by simp)) (hd y2 (by simp))
  · cases h

/-- C10: every date accepted by `parse_date` resolves its two-digit year
with a fixed century pivot — remainders 00–68 map into 2000–2068 and
69–99 into 1969–1999 — and `"010170"` parses to 1970-01-01. -/
theorem parse_date_century_pivot :
    (∀ (s : String) (p : PDate), parse_date s = some p →
      (p.year % 100 ≤ 68 ∧ p.year = 2000 + p.year % 100)
      ∨ (69 ≤ p.year % 100 ∧ p.year = 1900 + p.year % 100))
    ∧ parse_date "010170" = some ⟨1970, 1, 1⟩ := by
  refine ⟨fun s p h => ?_, by decide⟩
  unfold parse_date at h
  split at h
  · cases h
  · split at h
    · have hd : ∀ c ∈ ('0' :: s.data.filter Char.isDigit), c.isDigit = true := by
        intro c hc
        rcases List.mem_cons.mp hc with rfl | hc
        · decide
        · exact (List.mem_filter.mp hc).2
      rcases parseSix_year h hd with ⟨yy, hyy, hy⟩
      unfold pivotYear at hy
      split at hy
      · left; omega
      · right; omega
    · split at h
      · cases h
      · have hd : ∀ c ∈ s.data.filter Char.isDigit, c.isDigit = true :=
          fun c hc => (List.mem_filter.mp hc).2
        rcases parseSix_year h hd with ⟨yy, hyy, hy⟩
        unfold pivotYear at hy
        split at hy
        · left; omega
        · right; omega

/-- Witness for the C10 theorem at the concrete input `"010170"`. -/
theorem parse_date_century_pivot_witness :
    ((1970 % 100 ≤ 68 ∧ 1970 = 2000 + 1970 % 100)
     ∨ (69 ≤ 1970 % 100 ∧ 1970 = 1900 + 1970 % 100)) :=
  parse_date_century_pivot.1 "010170" ⟨1970, 1, 1⟩ (by decide)

/-! ### Division guards and percentage bounds -/

/-- A clamped value lies in [0, 100]. -/
theorem clamp_bounds (x : ℚ) : 0 ≤ min 100 (max 0 x) ∧ min 100 (max 0 x) ≤ 100 :=
  ⟨le_min (by norm_num) (le_max_left 0 x), min_le_left _ _⟩

/-- A guarded percentage of a part over a positive whole lies in [0, 100]. -/
theorem ratio_bound {a b : Nat} (hle : a ≤ b) (hpos : 0 < b) :
    (0 : ℚ) ≤ (a : ℚ) / (b : ℚ) * 100 ∧ (a : ℚ) / (b : ℚ) * 100 ≤ 100 := by
  have hb : (0 : ℚ) < (b : ℚ) := by exact_mod_cast hpos
  constructor
  · positivity
  · calc (a : ℚ) / (b : ℚ) * 100
        ≤ 1 * 100 :=
          mul_le_mul_of_nonneg_right ((div_le_one hb).mpr (by exact_mod_cast hle)) (by norm_num)
    _ = 100 := by norm_num

/-- The wrong-format email contacts are among the email-ish contacts. -/
theorem email_wrong_le_total (pnrs : List PNR) :
    email_wrong_format_count pnrs ≤ email_total pnrs :=
  List.countP_mono_left fun _ _ h => ((Bool.and_eq_true _ _).mp h).1

/-- The wrong-format phone contacts are among the digit-run contacts. -/
theorem phone_wrong_le_total (pnrs : List PNR) :
    phone_wrong_format_count pnrs ≤ phone_total pnrs :=
  List.countP_mono_left fun _ _ h => ((Bool.and_eq_true _ _).mp h).1

/-- C8: every derived average and percentage figure is guarded against a
zero denominator (yielding 0, never an exception or NaN) and every
percentage figure lies in [0, 100]. -/
theorem percentage_guards (pnrs : List PNR) :
    ((get_analytics_summary pnrs).total_pnrs = 0 →
      (get_analytics_summary pnrs).reachability_percentage = 0)
    ∧ ((get_analytics_summary pnrs).total_passengers = 0 →
      (get_analytics_summary pnrs).meal_completion_rate = 0)
    ∧ (pnrs = [] → overall_quality pnrs = 0)
    ∧ (email_total pnrs = 0 → email_wrong_format_percent pnrs = 0)
    ∧ (phone_total pnrs = 0 → phone_wrong_format_percent pnrs = 0)
    ∧ (0 ≤ (get_analytics_summary pnrs).reachability_percentage
       ∧ (get_analytics_summary pnrs).reachability_percentage ≤ 100)
    ∧ (0 ≤ (get_analytics_summary pnrs).meal_completion_rate
       ∧ (get_analytics_summary pnrs).meal_completion_rate ≤ 100)
    ∧ (0 ≤ email_wrong_format_percent pnrs ∧ email_wrong_format_percent pnrs ≤ 100)
    ∧ (0 ≤ phone_wrong_format_percent pnrs ∧ phone_wrong_format_percent pnrs ≤ 100) := by
  refine ⟨?_, ?_, ?_, ?_, ?_, ?_, ?_, ?_, ?_⟩
  · intro h
    simp only [get_analytics_summary] at h ⊢
    simp [h]
  · intro h
    simp only [get_analytics_summary] at h ⊢
    simp [h]
  · intro h
    subst h
    rfl
  · intro h
    simp [email_wrong_format_percent, h]
  · intro h
    simp [phone_wrong_format_percent, h]
  · simp only [get_analytics_summary]
    split
    · exact clamp_bounds _
    · exact ⟨le_refl 0, by norm_num⟩
  · simp only [get_analytics_summary]
    split
    · exact clamp_bounds _
    · exact ⟨le_refl 0, by norm_num⟩
  · unfold email_wrong_format_percent
    split
    · exact ratio_bound (email_wrong_le_total pnrs) (by assumption)
    · exact ⟨le_refl 0, by norm_num⟩
  · unfold phone_wrong_format_percent
    split
    · exact ratio_bound (phone_wrong_le_total pnrs) (by assumption)
    · exact ⟨le_refl 0, by norm_num⟩

/-- Witness for the C8 theorem at the empty PNR set. -/
theorem percentage_guards_witness :
    (get_analytics_summary []).reachability_percentage = 0 ∧ overall_quality [] = 0 :=
  ⟨(percentage_guards []).1 rfl, (percentage_guards []).2.2.1 rfl⟩

/-! ### Score buckets -/

/-- Each integer score satisfies exactly one of the five bucket
predicates of the distribution. -/
theorem bucket_pointwise (q : Int) :
    ((if decide (q ≤ 20) = true then 1 else 0)
     + (if (decide (20 < q) && decide (q ≤ 40)) = true then 1 else 0)
     + (if (decide (40 < q) && decide (q ≤ 60)) = true then 1 else 0)
     + (if (decide (60 < q) && decide (q ≤ 80)) = true then 1 else 0)
     + (if decide (80 < q) = true then 1 else 0) : Nat) = 1 := by
  simp only [Bool.and_eq_true, decide_eq_true_eq]
  split_ifs <;> omega

/-- The five bucket counts sum to the number of scores. -/
theorem countP_buckets (scores : List Int) :
    scores.countP (fun q => decide (q ≤ 20))
    + scores.countP (fun q => decide (20 < q) && decide (q ≤ 40))
    + scores.countP (fun q => decide (40 < q) && decide (q ≤ 60))
    + scores.countP (fun q => decide (60 < q) && decide (q ≤ 80))
    + scores.countP (fun q => decide (80 < q)) = scores.length := by
  induction scores with
  | nil => rfl
  | cons q rest ih =>
    simp only [List.countP_cons, List.length_cons]
    have := bucket_pointwise q
    omega

/-- C9: the five score bins of the distribution partition the scores —
the bucket counts sum to the set size and every score satisfies exactly
one bucket predicate; a PNR scoring exactly 20 and one scoring exactly 0
both land in the first bucket, and a score of 21 falls in the second
bucket only. -/
theorem bucket_partition :
    (∀ pnrs : List PNR,
      (quality_distribution pnrs).1 + (quality_distribution pnrs).2.1
      + (quality_distribution pnrs).2.2.1 + (quality_distribution pnrs).2.2.2.1
      + (quality_distribution pnrs).2.2.2.2 = pnrs.length)
    ∧ (∀ p : PNR,
      ((if decide (get_quality_score_annot p ≤ 20) = true then 1 else 0)
       + (if (decide (20 < get_quality_score_annot p)
              && decide (get_quality_score_annot p ≤ 40)) = true then 1 else 0)
       + (if (decide (40 < get_quality_score_annot p)
              && decide (get_quality_score_annot p ≤ 60)) = true then 1 else 0)
       + (if (decide (60 < get_quality_score_annot p)
              && decide (get_quality_score_annot p ≤ 80)) = true then 1 else 0)
       + (if decide (80 < get_quality_score_annot p) = true then 1 else 0) : Nat) = 1)
    ∧ quality_distribution [PNR.mk "S20" "" "" none "" "" []
        [Passenger.mk "A" "B" "" "" "" "" "" "" "AVML"]] = (1, 0, 0, 0, 0)
    ∧ quality_distribution [PNR.mk "S0" "" "" none "" "" [] []] = (1, 0, 0, 0, 0)
    ∧ ([(21 : Int)].countP (fun q => decide (20 < q) && decide (q ≤ 40)) = 1
       ∧ [(21 : Int)].countP (fun q => decide (q ≤ 20)) = 0) := by
  refine ⟨fun pnrs => ?_, fun p => bucket_pointwise _, by decide, by decide, by decide⟩
  have h := countP_buckets (pnrs.map get_quality_score_annot)
  simpa [quality_distribution, List.length_map] using h

end QM
